import Mathlib

/-!
Shallow embedding of the Pokémon-backend normalization core (`src/main.py`,
`src/schemas.py`): evolution-chain traversal with deduplication
(`build_evolution_chain` / inner `traverse`), and record normalization
(`normalize_pokemon`), together with models of the Python string and
integer primitives the code relies on (`str.rstrip`, `str.split`,
`int(...)`, `str.title()`).  Network lookups are modelled as oracle
functions, at two levels: `normalize_pokemon` takes helper-level oracles
returning `Option` (`none` = the non-200 status on which the Python
helpers return `None`), while `fetch_species`, `fetch_evolution_chain`
and `normalize_pokemonE` model the full flow of `requests.get`,
including the raised-exception path that no code in `main.py` handles;
`normalize_pokemonE_agrees` proves the former to be the restriction of
the latter to non-raising oracles.
-/

namespace Pokedex

/-! ## Data model (`src/schemas.py`) -/

/-- `EvolutionStage` of `schemas.py`: `id : int`, `name : str`,
`sprite : Optional[str]`. -/
structure EvolutionStage where
  id : Int
  name : String
  sprite : Option String
deriving DecidableEq

/-- `Stats` of `schemas.py`: six integer fields. -/
structure Stats where
  hp : Int
  attack : Int
  defense : Int
  special_attack : Int
  special_defense : Int
  speed : Int
deriving DecidableEq

/-- `Pokemon` of `schemas.py`.  The float fields `height` and `weight` are
modelled as rationals: the Python code computes them by a single division
of an integer by `10.0`. -/
structure Pokemon where
  id : Int
  name : String
  types : List String
  height : Rat
  weight : Rat
  stats : Stats
  sprite : Option String
  spriteHD : Option String
  evolution : List EvolutionStage
deriving DecidableEq

/-! ## Input shapes, as the code reads them

The raw values are JSON objects; each structure below records exactly the
keys the code accesses, with `Option` for keys that may be absent or null.
-/

/-- The `species` sub-object of an evolution-chain node:
`node["species"]["name"]` and `node["species"]["url"]`, each possibly
absent or null. -/
structure SpeciesRef where
  name : Option String
  url : Option String
deriving DecidableEq

/-- A node of the evolution-chain graph: a possibly absent `species`
reference and the `evolves_to` child list (absent key modelled as `[]`,
matching `node.get("evolves_to", [])`). -/
inductive ChainNode where
  | mk : Option SpeciesRef → List ChainNode → ChainNode

/-- Field accessor for the `species` entry of a node. -/
def ChainNode.species : ChainNode → Option SpeciesRef
  | .mk s _ => s

/-- Field accessor for the `evolves_to` entry of a node. -/
def ChainNode.evolves_to : ChainNode → List ChainNode
  | .mk _ c => c

/-- One entry of the raw `stats` list: `{"stat": {"name": ...},
"base_stat": ...}`. -/
structure RawStatEntry where
  stat_name : String
  base_stat : Int
deriving DecidableEq

/-- One entry of the raw `types` list: `{"type": {"name": ...}}`. -/
structure RawTypeEntry where
  type_name : String
deriving DecidableEq

/-- The raw base record, with the keys `normalize_pokemon` reads.
`name`, `height` and `weight` are read with `.get` and a default, so they
are modelled as `Option`; `id` is read with `raw.get("id")` and then fed
to the `Pokemon` constructor, which requires an integer, so it is
modelled as present. -/
structure RawRecord where
  id : Int
  name : Option String
  types : List RawTypeEntry
  stats : List RawStatEntry
  height : Option Int
  weight : Option Int

/-- The species record, of which the code reads only
`(species.get("evolution_chain") or {}).get("url")`. -/
structure SpeciesDoc where
  evolution_chain_url : Option String

/-- The evolution-chain record, of which the code reads only
`evo.get("chain", {})`. -/
structure EvoDoc where
  chain : Option ChainNode

/-! ## Python string/int primitives used by the code -/

/-- Python `s.rstrip('/')`: remove every trailing `'/'`. -/
def pyRstripSlash (s : String) : String :=
  String.mk ((s.data.reverse.dropWhile (fun c => c == '/')).reverse)

/-- Python `s.split('/')` on the character list: split at every `'/'`;
the empty string yields `[""]`, and adjacent separators yield empty
segments. -/
def splitSlash : List Char → List (List Char)
  | [] => [[]]
  | c :: cs =>
    if c = '/' then [] :: splitSlash cs
    else
      match splitSlash cs with
      | [] => [[c]]
      | s :: rest => (c :: s) :: rest

/-- Decimal value of a digit list (used only on all-digit lists). -/
def digitsVal (cs : List Char) : Nat :=
  cs.foldl (fun a c => a * 10 + (c.toNat - Char.toNat '0')) 0

/-- Python `int(s)` on ASCII decimal strings: optional surrounding
whitespace, an optional single sign, then one or more digits; every other
string raises `ValueError`, modelled as `none`. -/
def pyInt (s : String) : Option Int :=
  let cs := ((s.data.dropWhile (fun c => c.isWhitespace)).reverse.dropWhile
    (fun c => c.isWhitespace)).reverse
  match cs with
  | '+' :: r => if r ≠ [] ∧ r.all (fun c => c.isDigit) then some (Int.ofNat (digitsVal r)) else none
  | '-' :: r => if r ≠ [] ∧ r.all (fun c => c.isDigit) then some (-(Int.ofNat (digitsVal r))) else none
  | r => if r ≠ [] ∧ r.all (fun c => c.isDigit) then some (Int.ofNat (digitsVal r)) else none

/-- Python `str.title()` restricted to ASCII: scanning left to right, a
letter following a non-letter is uppercased, a letter following a letter
is lowercased, and non-letter characters pass through unchanged (they
delimit the words). -/
def pyTitleAux : Bool → List Char → List Char
  | _, [] => []
  | prevCased, c :: cs =>
    if c.isAlpha then
      (if prevCased then c.toLower else c.toUpper) :: pyTitleAux true cs
    else
      c :: pyTitleAux false cs

/-- Python `s.title()` (ASCII model). -/
def pyTitle (s : String) : String :=
  String.mk (pyTitleAux false s.data)

/-! ## Evolution-chain traversal (`src/main.py`, `build_evolution_chain`) -/

/-- The sprite URL template used for evolution stages and for the base
sprite: `f".../sprites/pokemon/{poke_id}.png"`. -/
def spriteUrl (poke_id : Int) : String :=
  "https://raw.githubusercontent.com/PokeAPI/sprites/master/sprites/pokemon/" ++
    toString poke_id ++ ".png"

/-- The HD sprite URL template:
`f".../sprites/pokemon/other/official-artwork/{pid}.png"`. -/
def spriteHDUrl (pid : Int) : String :=
  "https://raw.githubusercontent.com/PokeAPI/sprites/master/sprites/pokemon/other/official-artwork/" ++
    toString pid ++ ".png"

/-- `int(species_url.rstrip('/').split('/')[-1])` under
`try ... except: poke_id = 0`: the last segment of the split (the split
result is never empty) parsed by `pyInt`, with `0` on failure. -/
def parseTrailingId (species_url : String) : Int :=
  (pyInt (String.mk (((splitSlash (pyRstripSlash species_url).data).getLast?).getD []))).getD 0

mutual

/-- The inner `traverse(node)` of `build_evolution_chain`, returning the
list of stages it appends: read `node["species"]["name"]`; if it is
absent or empty (Python falsiness of `None`/`""`) return with nothing; else
parse the id from the species URL (default `""`), append the stage, and
recurse into the `evolves_to` children in order. -/
def traverse : ChainNode → List EvolutionStage
  | .mk species evolves_to =>
    let name := species.bind SpeciesRef.name
    if name = none ∨ name = some "" then []
    else
      let poke_id := parseTrailingId ((species.bind SpeciesRef.url).getD "")
      { id := poke_id, name := name.getD "", sprite := some (spriteUrl poke_id) }
        :: traverseList evolves_to

/-- The `for child in node.get("evolves_to", []): traverse(child)` loop:
stages appended by the children, in order. -/
def traverseList : List ChainNode → List EvolutionStage
  | [] => []
  | c :: cs => traverse c ++ traverseList cs

end

/-- The dedup loop of `build_evolution_chain`: keep a stage when its id is
not in `seen` and not `0`, adding kept ids to `seen`. -/
def dedupLoop : List Int → List EvolutionStage → List EvolutionStage
  | _, [] => []
  | seen, s :: rest =>
    if s.id ∉ seen ∧ s.id ≠ 0 then s :: dedupLoop (s.id :: seen) rest
    else dedupLoop seen rest

/-- `build_evolution_chain(chain_node)`: traverse, then deduplicate
preserving order, dropping id `0`. -/
def build_evolution_chain (chain_node : ChainNode) : List EvolutionStage :=
  dedupLoop [] (traverse chain_node)

/-! ## Normalization (`src/main.py`, `normalize_pokemon`) -/

/-- `stats_map.get(key, 0)` where `stats_map` is the dict comprehension
`{s["stat"]["name"]: s["base_stat"] for s in raw.get("stats", [])}`: a
dict built left to right, so for duplicate names the last entry wins. -/
def stats_map_get (stats : List RawStatEntry) (key : String) : Int :=
  match stats.reverse.find? (fun s => s.stat_name == key) with
  | some s => s.base_stat
  | none => 0

/-- The `Stats(...)` construction inside `normalize_pokemon`. -/
def buildStats (stats : List RawStatEntry) : Stats :=
  { hp := stats_map_get stats "hp"
    attack := stats_map_get stats "attack"
    defense := stats_map_get stats "defense"
    special_attack := stats_map_get stats "special-attack"
    special_defense := stats_map_get stats "special-defense"
    speed := stats_map_get stats "speed" }

/-- `normalize_pokemon(raw)` restricted to the non-raising paths of its
two network helpers, which are passed as oracles: `fetchSpecies` models
the value `fetch_species` returns when `requests.get` does not raise
(`none` = non-200) and likewise `fetchEvoChain` for
`fetch_evolution_chain` (`none` = non-200 or a falsy body).
`species = fetch_species(pid) or {}` becomes `getD` with the empty
record; `if evo_chain_url:` is Python truthiness of an optional string
(neither `None` nor `""`); `evo.get("chain", {})` becomes `getD` with the
empty node.  The raising path of `requests.get` — which the source does
not handle, so the exception propagates out of `normalize_pokemon` — is
modelled by `normalize_pokemonE` below, and `normalize_pokemonE_agrees`
proves this definition to be its restriction to non-raising oracles. -/
def normalize_pokemon (fetchSpecies : Int → Option SpeciesDoc)
    (fetchEvoChain : String → Option EvoDoc) (raw : RawRecord) : Pokemon :=
  let types := raw.types.map RawTypeEntry.type_name
  let stats := buildStats raw.stats
  let pid := raw.id
  let species := (fetchSpecies pid).getD { evolution_chain_url := none }
  let evo_chain_url := species.evolution_chain_url
  let evolution : List EvolutionStage :=
    match evo_chain_url with
    | none => []
    | some url =>
      if url = "" then []
      else
        match fetchEvoChain url with
        | none => []
        | some evo => build_evolution_chain (evo.chain.getD (ChainNode.mk none []))
  { id := pid
    name := pyTitle (raw.name.getD "")
    types := types
    height := ((raw.height.getD 0 : Int) : Rat) / 10
    weight := ((raw.weight.getD 0 : Int) : Rat) / 10
    stats := stats
    sprite := some (spriteUrl pid)
    spriteHD := some (spriteHDUrl pid)
    evolution := evolution }

/-! ## The exception flow of the network helpers

`requests.get` can raise (a real transport failure such as a connection
error) as well as return a response; `fetch_species` and
`fetch_evolution_chain` convert only a non-200 *response* into `None`
(main.py lines 61 to 72) and have no handler for a raised exception, and
neither does `normalize_pokemon` (lines 113 and 117), so a raise
propagates to the caller.  The definitions below make that flow explicit.
-/

/-- An exception raised by the HTTP layer (`requests.get`), such as a
connection error.  No code in `main.py` handles it. -/
inductive PyExn where
  | requestsException (msg : String)
deriving DecidableEq

/-- Outcome of a `requests.get` call: either a raised exception or a
response with a status code and a parsed JSON body (the body is only
consulted on status 200). -/
inductive HttpOutcome (α : Type) where
  | raise (e : PyExn)
  | response (status : Int) (json : α)

/-- `fetch_species(poke_id)` over an HTTP oracle: a raised exception
propagates (`Except.error`); a non-200 status returns `None`; otherwise
the parsed body is returned. -/
def fetch_species (http : Int → HttpOutcome SpeciesDoc) (poke_id : Int) :
    Except PyExn (Option SpeciesDoc) :=
  match http poke_id with
  | HttpOutcome.raise e => Except.error e
  | HttpOutcome.response status json =>
    if status ≠ 200 then Except.ok none else Except.ok (some json)

/-- `fetch_evolution_chain(url)` over an HTTP oracle: a raised exception
propagates; a non-200 status returns `None`; otherwise the parsed body is
returned. -/
def fetch_evolution_chain (http : String → HttpOutcome EvoDoc) (url : String) :
    Except PyExn (Option EvoDoc) :=
  match http url with
  | HttpOutcome.raise e => Except.error e
  | HttpOutcome.response status json =>
    if status ≠ 200 then Except.ok none else Except.ok (some json)

/-- The final `Pokemon(...)` construction of `normalize_pokemon`, given
the already-computed evolution list. -/
def mkNormalizedPokemon (raw : RawRecord) (evolution : List EvolutionStage) : Pokemon :=
  { id := raw.id
    name := pyTitle (raw.name.getD "")
    types := raw.types.map RawTypeEntry.type_name
    height := ((raw.height.getD 0 : Int) : Rat) / 10
    weight := ((raw.weight.getD 0 : Int) : Rat) / 10
    stats := buildStats raw.stats
    sprite := some (spriteUrl raw.id)
    spriteHD := some (spriteHDUrl raw.id)
    evolution := evolution }

/-- `normalize_pokemon(raw)` with the exception flow of the helpers made
explicit: an exception raised inside `fetch_species` or
`fetch_evolution_chain` aborts normalization and propagates to the
caller (`Except.error`), exactly as in the source, while the `None`
results of non-200 responses degrade to an empty evolution list. -/
def normalize_pokemonE (httpSpecies : Int → HttpOutcome SpeciesDoc)
    (httpEvo : String → HttpOutcome EvoDoc) (raw : RawRecord) :
    Except PyExn Pokemon :=
  match fetch_species httpSpecies raw.id with
  | Except.error e => Except.error e
  | Except.ok speciesOpt =>
    let species := speciesOpt.getD { evolution_chain_url := none }
    match species.evolution_chain_url with
    | none => Except.ok (mkNormalizedPokemon raw [])
    | some url =>
      if url = "" then Except.ok (mkNormalizedPokemon raw [])
      else
        match fetch_evolution_chain httpEvo url with
        | Except.error e => Except.error e
        | Except.ok none => Except.ok (mkNormalizedPokemon raw [])
        | Except.ok (some evo) =>
          Except.ok (mkNormalizedPokemon raw
            (build_evolution_chain (evo.chain.getD (ChainNode.mk none []))))

/-- Lift a non-raising species oracle (the model under
`normalize_pokemon`) to an HTTP oracle: `some` becomes a 200 response and
`none` a 404 response whose body is never read. -/
def liftSpeciesOracle (fs : Int → Option SpeciesDoc) : Int → HttpOutcome SpeciesDoc :=
  fun i =>
    match fs i with
    | some d => HttpOutcome.response 200 d
    | none => HttpOutcome.response 404 { evolution_chain_url := none }

/-- Lift a non-raising evolution-chain oracle to an HTTP oracle. -/
def liftEvoOracle (fe : String → Option EvoDoc) : String → HttpOutcome EvoDoc :=
  fun u =>
    match fe u with
    | some d => HttpOutcome.response 200 d
    | none => HttpOutcome.response 404 { chain := none }

/-! ## Specification-side definitions

These render the spec's own wording, to be compared with the embedded
code above.
-/

/-- The spec's deduplication, as worded: drop entries with id `0`, keep
the first stage of each id, preserving first-seen order (every later
stage with an already-kept id is filtered away up front). -/
def specDedup : List EvolutionStage → List EvolutionStage
  | [] => []
  | s :: rest =>
    if s.id = 0 then specDedup rest
    else s :: specDedup (rest.filter (fun t => t.id != s.id))
termination_by l => l.length
decreasing_by
  · simp
  · exact Nat.lt_succ_of_le (List.length_filter_le _ _)

/-- The spec's id segment: the last `"/"`-delimited non-empty segment of
the URL, when one exists. -/
def lastNonEmptySeg (url : String) : Option (List Char) :=
  ((splitSlash url.data).filter (fun s => !s.isEmpty)).getLast?

/-- The spec's per-node numeric id: the last non-empty segment parsed as
an integer, and `0` when there is no such segment or parsing fails. -/
def specParseId (url : String) : Int :=
  match lastNonEmptySeg url with
  | none => 0
  | some seg => (pyInt (String.mk seg)).getD 0

/-- The claim's reading of title-casing: capitalize the first letter of
each whitespace-separated word and leave every other character
unchanged. -/
def specTitleAux : Bool → List Char → List Char
  | _, [] => []
  | atStart, c :: cs =>
    if c.isWhitespace then c :: specTitleAux true cs
    else (if atStart then c.toUpper else c) :: specTitleAux false cs

/-- Title-casing as the claim words it. -/
def specTitle (s : String) : String :=
  String.mk (specTitleAux true s.data)

/-- The stage `traverse` emits for a node whose species entry is `sp`,
written with the code's id parse. -/
def nodeStage (sp : Option SpeciesRef) : EvolutionStage :=
  { id := parseTrailingId ((sp.bind SpeciesRef.url).getD "")
    name := (sp.bind SpeciesRef.name).getD ""
    sprite := some (spriteUrl (parseTrailingId ((sp.bind SpeciesRef.url).getD ""))) }

/-- The stage a node should emit according to the spec's wording of the
id parse (last non-empty segment). -/
def specNodeStage (sp : Option SpeciesRef) : EvolutionStage :=
  { id := specParseId ((sp.bind SpeciesRef.url).getD "")
    name := (sp.bind SpeciesRef.name).getD ""
    sprite := some (spriteUrl (specParseId ((sp.bind SpeciesRef.url).getD ""))) }

/-- A node's species name is unresolvable exactly when Python's
`if not name:` fires: the name is absent, null, or the empty string. -/
def namelessNode (sp : Option SpeciesRef) : Prop :=
  sp.bind SpeciesRef.name = none ∨ sp.bind SpeciesRef.name = some ""

instance (sp : Option SpeciesRef) : Decidable (namelessNode sp) := by
  unfold namelessNode
  infer_instance

/-! ## Lemmas about the split/rstrip segment extraction -/

theorem splitSlash_ne_nil (cs : List Char) : splitSlash cs ≠ [] := by
  cases cs with
  | nil => simp [splitSlash]
  | cons c cs =>
    simp only [splitSlash]
    split
    · simp
    · cases h : splitSlash cs <;> simp

theorem splitSlash_append_slash (cs : List Char) :
    splitSlash (cs ++ ['/']) = splitSlash cs ++ [[]] := by
  induction cs with
  | nil => simp [splitSlash]
  | cons c cs ih =>
    by_cases hc : c = '/'
    · subst hc
      simp [splitSlash, ih]
    · cases h : splitSlash cs with
      | nil => exact absurd h (splitSlash_ne_nil cs)
      | cons s rest =>
        simp [splitSlash, hc, ih, h]

theorem splitSlash_append_ne (cs : List Char) (c : Char) (hc : ¬ c = '/') :
    splitSlash (cs ++ [c]) =
      (splitSlash cs).dropLast ++ [((splitSlash cs).getLast?.getD []) ++ [c]] := by
  induction cs with
  | nil => simp [splitSlash, hc]
  | cons d cs ih =>
    by_cases hd : d = '/'
    · subst hd
      cases h : splitSlash cs with
      | nil => exact absurd h (splitSlash_ne_nil cs)
      | cons s rest =>
        rw [h] at ih
        simp only [List.cons_append, splitSlash, if_pos rfl, h]
        cases rest with
        | nil => simpa using ih
        | cons r t =>
          simpa [List.getLast?_cons_cons, List.dropLast_cons₂] using ih
    · cases h : splitSlash cs with
      | nil => exact absurd h (splitSlash_ne_nil cs)
      | cons s rest =>
        rw [h] at ih
        simp only [List.cons_append, splitSlash, if_neg hd, h]
        cases rest with
        | nil =>
          simp only [List.dropLast_single, List.getLast?_singleton,
            Option.getD_some, List.nil_append] at ih
          simp only [List.append_eq]
          rw [ih]
          simp
        | cons r t =>
          simp only [List.dropLast_cons₂, List.getLast?_cons_cons,
            List.cons_append] at ih
          simp only [List.append_eq]
          rw [ih]
          simp [List.dropLast_cons₂, List.getLast?_cons_cons]

theorem codeSeg_eq_lastNonEmpty (cs : List Char) :
    ((splitSlash ((cs.reverse.dropWhile (fun c => c == '/')).reverse)).getLast?).getD [] =
      (((splitSlash cs).filter (fun s => !s.isEmpty)).getLast?).getD [] := by
  induction cs using List.reverseRecOn with
  | nil => simp [splitSlash]
  | append_singleton ds c ih =>
    by_cases hc : c = '/'
    · subst hc
      rw [List.reverse_append]
      simpa [splitSlash_append_slash, List.filter_append] using ih
    · have hkeep : (ds ++ [c]).reverse.dropWhile (fun x => x == '/') = c :: ds.reverse := by
        rw [List.reverse_append]
        simp [List.dropWhile_cons, hc]
      rw [hkeep]
      have hrev : (c :: ds.reverse).reverse = ds ++ [c] := by simp
      rw [hrev, splitSlash_append_ne ds c hc]
      rw [List.filter_append, List.getLast?_append]
      simp

theorem parseTrailingId_eq_specParseId (url : String) :
    parseTrailingId url = specParseId url := by
  have hseg := codeSeg_eq_lastNonEmpty url.data
  unfold parseTrailingId specParseId lastNonEmptySeg pyRstripSlash
  cases h : ((splitSlash url.data).filter (fun s => !s.isEmpty)).getLast? with
  | none =>
    rw [h] at hseg
    simp only [Option.getD_none] at hseg
    simp [hseg, pyInt]
  | some seg =>
    rw [h] at hseg
    simp only [Option.getD_some] at hseg
    simp [hseg]

/-! ## Unfolding lemmas for the traversal -/

theorem traverse_nameless (sp : Option SpeciesRef) (children : List ChainNode)
    (h : namelessNode sp) : traverse (ChainNode.mk sp children) = [] := by
  unfold namelessNode at h
  simp only [traverse]
  rw [if_pos h]

theorem traverse_named (sp : Option SpeciesRef) (children : List ChainNode)
    (h : ¬ namelessNode sp) :
    traverse (ChainNode.mk sp children) = nodeStage sp :: traverseList children := by
  unfold namelessNode at h
  simp only [traverse]
  rw [if_neg h]
  rfl

theorem traverseList_cons (c : ChainNode) (cs : List ChainNode) :
    traverseList (c :: cs) = traverse c ++ traverseList cs := by
  simp [traverseList]

/-! ## Lemmas about deduplication -/

theorem dedupLoop_eq_specDedup (l : List EvolutionStage) (seen : List Int) :
    dedupLoop seen l = specDedup (l.filter (fun s => decide (s.id ∉ seen))) := by
  induction l generalizing seen with
  | nil => simp [dedupLoop, specDedup]
  | cons s rest ih =>
    by_cases hs : s.id ∈ seen
    · have hdec : (decide (s.id ∉ seen)) = false := by simp [hs]
      have hcond : ¬ (s.id ∉ seen ∧ s.id ≠ 0) := fun hx => hx.1 hs
      simp only [dedupLoop, if_neg hcond, List.filter_cons, hdec,
        Bool.false_eq_true, if_false]
      exact ih seen
    · by_cases h0 : s.id = 0
      · have hcond : ¬ (s.id ∉ seen ∧ s.id ≠ 0) := fun hx => hx.2 h0
        have hdec : (decide (s.id ∉ seen)) = true := by simp [hs]
        simp only [dedupLoop, if_neg hcond, List.filter_cons, hdec,
          eq_self_iff_true, if_true, specDedup, if_pos h0]
        exact ih seen
      · have hcond : s.id ∉ seen ∧ s.id ≠ 0 := ⟨hs, h0⟩
        have hdec : (decide (s.id ∉ seen)) = true := by simp [hs]
        simp only [dedupLoop, if_pos hcond, List.filter_cons, hdec,
          eq_self_iff_true, if_true, specDedup, if_neg h0]
        rw [ih (s.id :: seen)]
        congr 1
        rw [List.filter_filter]
        congr 1
        apply List.filter_congr
        intro t _
        by_cases h1 : t.id = s.id <;> by_cases h2 : t.id ∈ seen <;>
          simp [h1, h2]

theorem build_eq_specDedup (n : ChainNode) :
    build_evolution_chain n = specDedup (traverse n) := by
  have h := dedupLoop_eq_specDedup (traverse n) []
  simpa [build_evolution_chain] using h

theorem dedupLoop_ids_nodup (l : List EvolutionStage) (seen : List Int) :
    ((dedupLoop seen l).map EvolutionStage.id).Nodup ∧
      ∀ i ∈ (dedupLoop seen l).map EvolutionStage.id, i ∉ seen := by
  induction l generalizing seen with
  | nil => simp [dedupLoop]
  | cons s rest ih =>
    by_cases h : s.id ∉ seen ∧ s.id ≠ 0
    · obtain ⟨ih1, ih2⟩ := ih (s.id :: seen)
      simp only [dedupLoop, if_pos h, List.map_cons, List.nodup_cons]
      refine ⟨⟨fun hmem => ?_, ih1⟩, ?_⟩
      · exact (ih2 _ hmem) (List.mem_cons_self _ _)
      · intro i hi
        rcases List.mem_cons.mp hi with rfl | hi'
        · exact h.1
        · exact fun hseen => (ih2 _ hi') (List.mem_cons_of_mem _ hseen)
    · obtain ⟨ih1, ih2⟩ := ih seen
      simp only [dedupLoop, if_neg h]
      exact ⟨ih1, fun i hi => ih2 i hi⟩

theorem dedupLoop_zero_free (l : List EvolutionStage) (seen : List Int) :
    (0 : Int) ∉ (dedupLoop seen l).map EvolutionStage.id := by
  induction l generalizing seen with
  | nil => simp [dedupLoop]
  | cons s rest ih =>
    by_cases h : s.id ∉ seen ∧ s.id ≠ 0
    · simp only [dedupLoop, if_pos h, List.map_cons, List.mem_cons]
      rintro (h0 | h0)
      · exact h.2 h0.symm
      · exact ih _ h0
    · simp only [dedupLoop, if_neg h]
      exact ih seen

theorem specDedup_sublist (l : List EvolutionStage) : List.Sublist (specDedup l) l := by
  induction l using specDedup.induct with
  | case1 => simp [specDedup]
  | case2 s rest h ih =>
    simp only [specDedup, if_pos h]
    exact ih.trans (List.sublist_cons_self _ _)
  | case3 s rest h ih =>
    simp only [specDedup, if_neg h]
    exact List.Sublist.cons₂ _ (ih.trans (List.filter_sublist rest))

theorem build_sublist_traverse (n : ChainNode) :
    List.Sublist (build_evolution_chain n) (traverse n) := by
  rw [build_eq_specDedup]
  exact specDedup_sublist (traverse n)

/-! ## Lemmas about the stats map -/

/-- The six stat names `normalize_pokemon` recognizes. -/
def recognizedStatNames : List String :=
  ["hp", "attack", "defense", "special-attack", "special-defense", "speed"]

theorem find?_filter_of_imp {α : Type} (l : List α) (p q : α → Bool)
    (h : ∀ a, q a = true → p a = true) : (l.filter p).find? q = l.find? q := by
  induction l with
  | nil => simp
  | cons a l ih =>
    by_cases hp : p a = true
    · rw [List.filter_cons, if_pos hp]
      by_cases hq : q a = true
      · rw [List.find?_cons_of_pos _ hq, List.find?_cons_of_pos _ hq]
      · rw [List.find?_cons_of_neg _ (by simp [hq]),
          List.find?_cons_of_neg _ (by simp [hq])]
        exact ih
    · have hq : ¬ q a = true := fun hqa => hp (h a hqa)
      rw [List.filter_cons, if_neg hp, List.find?_cons_of_neg _ (by simp [hq])]
      exact ih

theorem stats_map_get_filter (l : List RawStatEntry) (k : String)
    (hk : recognizedStatNames.contains k = true) :
    stats_map_get (l.filter (fun s => recognizedStatNames.contains s.stat_name)) k =
      stats_map_get l k := by
  unfold stats_map_get
  rw [← List.filter_reverse]
  rw [find?_filter_of_imp]
  intro a ha
  have : a.stat_name = k := by simpa using ha
  rw [this]
  exact hk

theorem stats_map_get_absent (l : List RawStatEntry) (k : String)
    (h : k ∉ l.map RawStatEntry.stat_name) : stats_map_get l k = 0 := by
  unfold stats_map_get
  have hnone : l.reverse.find? (fun s => s.stat_name == k) = none := by
    rw [List.find?_eq_none]
    intro x hx
    simp only [beq_iff_eq]
    intro hxk
    apply h
    rw [← hxk]
    exact List.mem_map_of_mem _ (List.mem_reverse.mp hx)
  rw [hnone]

/-! ## Concrete inputs used in examples and witnesses -/

/-- A fully-populated species reference for examples: name plus the real
PokeAPI species URL shape. -/
def exRef (n : Nat) (nm : String) : SpeciesRef :=
  { name := some nm
    url := some ("https://pokeapi.co/api/v2/pokemon-species/" ++ toString n ++ "/") }

/-! ## The Option-oracle normalizer is the non-raising restriction -/

theorem normalize_pokemonE_agrees (fs : Int → Option SpeciesDoc)
    (fe : String → Option EvoDoc) (raw : RawRecord) :
    normalize_pokemonE (liftSpeciesOracle fs) (liftEvoOracle fe) raw =
      Except.ok (normalize_pokemon fs fe raw) := by
  unfold normalize_pokemonE normalize_pokemon fetch_species fetch_evolution_chain
    liftSpeciesOracle liftEvoOracle mkNormalizedPokemon
  cases hfs : fs raw.id with
  | none => simp [hfs]
  | some d =>
    simp only [hfs]
    cases hurl : d.evolution_chain_url with
    | none => simp [hurl]
    | some url =>
      by_cases hu : url = ""
      · simp [hurl, hu]
      · cases hfe : fe url with
        | none => simp [hurl, hu, hfe]
        | some evo => simp [hurl, hu, hfe]

/-! ## Claims -/

/-- C1 counterexample input: a root without a species name whose single
child is a fully valid node (name `ivysaur`, id 2). -/
def c1Root : ChainNode :=
  ChainNode.mk none [ChainNode.mk (some (exRef 2 "ivysaur")) []]

/-- Claim C1, as stated, is false: on a root with no resolvable species
name, `build_evolution_chain` emits nothing at all, even though the
root's child is a valid node that would produce a stage on its own — the
children of a nameless node are not visited. -/
theorem c1_counterexample :
    build_evolution_chain c1Root = [] ∧
    build_evolution_chain (ChainNode.mk (some (exRef 2 "ivysaur")) []) =
      [{ id := 2, name := "ivysaur", sprite := some (spriteUrl 2) }] := by
  constructor <;> decide

/-- C1 (amended): a node with no resolvable species name is skipped
together with its whole subtree — no stage is emitted for it and its
children under `evolves_to` are not visited; the traversal of its
siblings continues unaffected (the sibling loop still processes every
entry). -/
theorem c1_nameless_prunes_subtree (sp : Option SpeciesRef)
    (children : List ChainNode) (h : namelessNode sp) :
    traverse (ChainNode.mk sp children) = [] ∧
    build_evolution_chain (ChainNode.mk sp children) = [] ∧
    ∀ c cs, traverseList (c :: cs) = traverse c ++ traverseList cs := by
  refine ⟨traverse_nameless sp children h, ?_, traverseList_cons⟩
  unfold build_evolution_chain
  rw [traverse_nameless sp children h]
  rfl

/-- Witness for C1 (amended) at a concrete nameless root with a valid
child. -/
theorem c1_nameless_prunes_subtree_witness :
    traverse c1Root = [] ∧ build_evolution_chain c1Root = [] :=
  ⟨(c1_nameless_prunes_subtree none [ChainNode.mk (some (exRef 2 "ivysaur")) []]
      (by decide)).1,
   (c1_nameless_prunes_subtree none [ChainNode.mk (some (exRef 2 "ivysaur")) []]
      (by decide)).2.1⟩

/-- Claim C2: the output of `build_evolution_chain` equals the spec's
first-occurrence deduplication of the pre-order stage sequence (so the
surviving stages appear in first-seen order — in particular the output is
a sublist of the traversal), its ids are pairwise distinct, and id `0`
never occurs in it. -/
theorem c2_dedup_invariant (n : ChainNode) :
    build_evolution_chain n = specDedup (traverse n) ∧
    List.Sublist (build_evolution_chain n) (traverse n) ∧
    ((build_evolution_chain n).map EvolutionStage.id).Nodup ∧
    (0 : Int) ∉ (build_evolution_chain n).map EvolutionStage.id :=
  ⟨build_eq_specDedup n, build_sublist_traverse n,
   (dedupLoop_ids_nodup (traverse n) []).1, dedupLoop_zero_free (traverse n) []⟩

/-- C3 example graph: root id 1 with children ids 2 and 3, where node 2
has the single child id 4. -/
def c3Root : ChainNode :=
  ChainNode.mk (some (exRef 1 "bulbasaur"))
    [ChainNode.mk (some (exRef 2 "ivysaur"))
      [ChainNode.mk (some (exRef 4 "megasaur")) []],
     ChainNode.mk (some (exRef 3 "venusaur")) []]

/-- Claim C3: the traversal is pre-order depth-first — a named node's
stage is emitted first and then the children are traversed in source
order — and on the claim's literal example (root 1 with children [2, 3]
and 2 having child 4) the flattened id order is exactly [1, 2, 4, 3]. -/
theorem c3_preorder :
    ((build_evolution_chain c3Root).map EvolutionStage.id = [1, 2, 4, 3]) ∧
    (∀ sp children, ¬ namelessNode sp →
      traverse (ChainNode.mk sp children) = nodeStage sp :: traverseList children) ∧
    (∀ c cs, traverseList (c :: cs) = traverse c ++ traverseList cs) :=
  ⟨by decide, traverse_named, traverseList_cons⟩

/-- Witness for C3 at a concrete named node. -/
theorem c3_preorder_witness :
    ¬ namelessNode (some (exRef 1 "bulbasaur")) ∧
    traverse (ChainNode.mk (some (exRef 1 "bulbasaur")) []) =
      nodeStage (some (exRef 1 "bulbasaur")) :: traverseList [] :=
  ⟨by decide, c3_preorder.2.1 (some (exRef 1 "bulbasaur")) [] (by decide)⟩

/-- Claim C4: for every traversed (named) node the emitted stage carries
the id parsed from the last `"/"`-delimited non-empty segment of the
species URL (`specNodeStage` is phrased through `specParseId`, the
spec-side description; the code's `rstrip`/`split`/`[-1]`/`int`
composition provably agrees), the id defaults to `0` when the reference
is absent (`specParseId "" = 0`), and the children are still traversed
afterwards. -/
theorem c4_id_from_last_segment (sp : Option SpeciesRef)
    (children : List ChainNode) (h : ¬ namelessNode sp) :
    traverse (ChainNode.mk sp children) =
      specNodeStage sp :: traverseList children ∧
    specParseId "" = 0 ∧
    (∀ url, parseTrailingId url = specParseId url) := by
  have hstage : nodeStage sp = specNodeStage sp := by
    unfold nodeStage specNodeStage
    rw [parseTrailingId_eq_specParseId]
  refine ⟨?_, by decide, parseTrailingId_eq_specParseId⟩
  rw [traverse_named sp children h, hstage]

/-- Witness for C4 at a node whose species reference is absent: the
emitted id is 0 and the child list is still traversed. -/
theorem c4_id_from_last_segment_witness :
    (¬ namelessNode (some { name := some "missingno", url := none })) ∧
    traverse (ChainNode.mk (some { name := some "missingno", url := none }) []) =
      specNodeStage (some { name := some "missingno", url := none }) :: traverseList [] ∧
    (specNodeStage (some { name := some "missingno", url := none })).id = 0 :=
  ⟨by decide,
   (c4_id_from_last_segment (some { name := some "missingno", url := none }) []
      (by decide)).1,
   by decide⟩

/-- Claim C5: `build_evolution_chain` is a total function of the input
graph (the Lean embedding returns a value on every `ChainNode`, modelling
"never raises"), and on an empty root — in particular any root whose
species name is unresolvable, which is what an entirely unparseable root
reduces to — it returns the empty sequence. -/
theorem c5_malformed_root_empty (sp : Option SpeciesRef)
    (children : List ChainNode) (h : namelessNode sp) :
    build_evolution_chain (ChainNode.mk none []) = [] ∧
    build_evolution_chain (ChainNode.mk sp children) = [] := by
  refine ⟨by decide, ?_⟩
  unfold build_evolution_chain
  rw [traverse_nameless sp children h]
  rfl

/-- Witness for C5 at a concrete nameless root carrying children. -/
theorem c5_malformed_root_empty_witness :
    build_evolution_chain (ChainNode.mk none []) = [] ∧
    build_evolution_chain
      (ChainNode.mk (some { name := some "", url := some "https://pokeapi.co/api/v2/pokemon-species/7/" })
        [ChainNode.mk (some (exRef 8 "wartortle")) []]) = [] :=
  c5_malformed_root_empty
    (some { name := some "", url := some "https://pokeapi.co/api/v2/pokemon-species/7/" })
    [ChainNode.mk (some (exRef 8 "wartortle")) []] (by decide)

/-- A concrete raw record used in witnesses. -/
def rawPikachu : RawRecord :=
  { id := 25
    name := some "pikachu"
    types := [{ type_name := "electric" }]
    stats := [{ stat_name := "hp", base_stat := 35 }]
    height := some 4
    weight := some 60 }

/-- C6 counterexample input: a species oracle whose underlying request
raises a transport exception. -/
def raisingSpeciesOracle : Int → HttpOutcome SpeciesDoc :=
  fun _ => HttpOutcome.raise (PyExn.requestsException "connection refused")

/-- C6 counterexample input: a species oracle that succeeds with an
evolution-chain URL, to reach the second lookup. -/
def okSpeciesOracle : Int → HttpOutcome SpeciesDoc :=
  fun _ =>
    HttpOutcome.response 200
      { evolution_chain_url := some "https://pokeapi.co/api/v2/evolution-chain/10/" }

/-- Claim C6, as stated, is false: a transport failure that makes the
underlying request of either secondary lookup raise propagates out of
`normalize_pokemon` — the result is the exception, not a `Pokemon` with
an empty evolution list (the source has no handler around
`fetch_species(pid)` or `fetch_evolution_chain(url)`). -/
theorem c6_counterexample :
    normalize_pokemonE raisingSpeciesOracle
      (fun _ => HttpOutcome.response 404 { chain := none }) rawPikachu =
      Except.error (PyExn.requestsException "connection refused") ∧
    normalize_pokemonE okSpeciesOracle
      (fun _ => HttpOutcome.raise (PyExn.requestsException "connection refused"))
      rawPikachu =
      Except.error (PyExn.requestsException "connection refused") := by
  constructor <;> rfl

/-- C6 (amended): when a secondary lookup fails *by status* — the request
returns a non-200 response, so the helper returns `None` — normalization
still produces a `Pokemon` whose evolution field is the empty sequence
and no failure reaches the caller; a *raised* transport exception inside
either lookup, however, is unhandled and propagates out of
`normalize_pokemon`. -/
theorem c6_status_failure_degrades (httpSpecies : Int → HttpOutcome SpeciesDoc)
    (httpEvo : String → HttpOutcome EvoDoc) (raw : RawRecord) :
    (fetch_species httpSpecies raw.id = Except.ok none →
      (normalize_pokemonE httpSpecies httpEvo raw).toOption.map Pokemon.evolution =
        some []) ∧
    ((∃ so, fetch_species httpSpecies raw.id = Except.ok so) →
      (∀ u, fetch_evolution_chain httpEvo u = Except.ok none) →
      (normalize_pokemonE httpSpecies httpEvo raw).toOption.map Pokemon.evolution =
        some []) ∧
    (∀ e, fetch_species httpSpecies raw.id = Except.error e →
      normalize_pokemonE httpSpecies httpEvo raw = Except.error e) ∧
    (∀ e so url, fetch_species httpSpecies raw.id = Except.ok so →
      (so.getD { evolution_chain_url := none }).evolution_chain_url = some url →
      url ≠ "" →
      fetch_evolution_chain httpEvo url = Except.error e →
      normalize_pokemonE httpSpecies httpEvo raw = Except.error e) := by
  refine ⟨?_, ?_, ?_, ?_⟩
  · intro hs
    simp only [normalize_pokemonE, hs]
    rfl
  · rintro ⟨so, hs⟩ hfe
    simp only [normalize_pokemonE, hs]
    split
    · rfl
    · rename_i url hurl
      split
      · rfl
      · rw [hfe url]
        rfl
  · intro e hs
    simp only [normalize_pokemonE, hs]
  · intro e so url hs hurl hu hfe
    simp only [normalize_pokemonE, hs, hurl]
    rw [if_neg hu, hfe]

/-- Witness for C6 (amended): a 404 on the species lookup degrades to an
empty evolution list with no exception reaching the caller. -/
theorem c6_status_failure_degrades_witness :
    fetch_species (fun _ => HttpOutcome.response 404 { evolution_chain_url := none })
      rawPikachu.id = Except.ok none ∧
    (normalize_pokemonE
        (fun _ => HttpOutcome.response 404 { evolution_chain_url := none })
        (fun _ => HttpOutcome.response 404 { chain := none })
        rawPikachu).toOption.map Pokemon.evolution = some [] :=
  ⟨rfl,
   (c6_status_failure_degrades
      (fun _ => HttpOutcome.response 404 { evolution_chain_url := none })
      (fun _ => HttpOutcome.response 404 { chain := none }) rawPikachu).1 rfl⟩

/-- Claim C7: the `Stats` value built by `normalize_pokemon` is
`buildStats` of the raw stats list; entries whose names are outside the
six recognized names have no effect (filtering the list down to
recognized names changes nothing); and a key absent from the source list
yields 0 — in particular a list without `"speed"` gives `speed = 0`. -/
theorem c7_stats_recognized (fetchSpecies : Int → Option SpeciesDoc)
    (fetchEvoChain : String → Option EvoDoc) (raw : RawRecord) :
    (normalize_pokemon fetchSpecies fetchEvoChain raw).stats = buildStats raw.stats ∧
    (∀ l : List RawStatEntry,
      buildStats (l.filter (fun s => recognizedStatNames.contains s.stat_name)) =
        buildStats l) ∧
    (∀ (l : List RawStatEntry) (k : String),
      k ∉ l.map RawStatEntry.stat_name → stats_map_get l k = 0) ∧
    (∀ l : List RawStatEntry,
      "speed" ∉ l.map RawStatEntry.stat_name → (buildStats l).speed = 0) := by
  refine ⟨rfl, ?_, stats_map_get_absent, ?_⟩
  · intro l
    simp only [buildStats, Stats.mk.injEq]
    refine ⟨?_, ?_, ?_, ?_, ?_, ?_⟩ <;> exact stats_map_get_filter l _ (by decide)
  · intro l hl
    exact stats_map_get_absent l "speed" hl

/-- Witness for C7: a stats list carrying only `hp` yields `speed = 0`,
and an unrecognized entry does not change the result. -/
theorem c7_stats_recognized_witness :
    ("speed" ∉ ([{ stat_name := "hp", base_stat := 35 }] : List RawStatEntry).map
      RawStatEntry.stat_name) ∧
    (buildStats [{ stat_name := "hp", base_stat := 35 }]).speed = 0 ∧
    buildStats (([{ stat_name := "hp", base_stat := 35 },
        { stat_name := "bogus", base_stat := 99 }] : List RawStatEntry).filter
      (fun s => recognizedStatNames.contains s.stat_name)) =
      buildStats [{ stat_name := "hp", base_stat := 35 },
        { stat_name := "bogus", base_stat := 99 }] :=
  ⟨by decide,
   (c7_stats_recognized (fun _ => none) (fun _ => none) rawPikachu).2.2.2
     [{ stat_name := "hp", base_stat := 35 }] (by decide),
   (c7_stats_recognized (fun _ => none) (fun _ => none) rawPikachu).2.1
     [{ stat_name := "hp", base_stat := 35 }, { stat_name := "bogus", base_stat := 99 }]⟩

/-- C8 counterexample input: the real species slug `ho-oh`. -/
def c8Raw : RawRecord :=
  { id := 250, name := some "ho-oh", types := [], stats := [],
    height := none, weight := none }

/-- Claim C8, as stated, is false: on the slug `ho-oh` the code produces
`Ho-Oh` (Python `str.title()` starts a new word at every non-letter),
while title-casing only at whitespace-separated word boundaries, as the
claim words it (`specTitle`), would produce `Ho-oh`. -/
theorem c8_counterexample :
    (normalize_pokemon (fun _ => none) (fun _ => none) c8Raw).name = "Ho-Oh" ∧
    specTitle "ho-oh" = "Ho-oh" ∧
    ("Ho-Oh" : String) ≠ "Ho-oh" := by
  refine ⟨by decide, by decide, by decide⟩

/-- C8 (amended): `Pokemon.name` equals the source slug transformed by
Python `str.title()` semantics (`pyTitle`): every maximal run of letters
is a word, its first letter is uppercased and the following letters are
lowercased, and non-letter characters — not only whitespace — separate
words and pass through unchanged. -/
theorem c8_name_title (fetchSpecies : Int → Option SpeciesDoc)
    (fetchEvoChain : String → Option EvoDoc) (raw : RawRecord) :
    (normalize_pokemon fetchSpecies fetchEvoChain raw).name =
      pyTitle (raw.name.getD "") ∧
    pyTitle "ho-oh" = "Ho-Oh" ∧
    pyTitle "PIKACHU" = "Pikachu" ∧
    pyTitle "mr. mime" = "Mr. Mime" :=
  ⟨rfl, by decide, by decide, by decide⟩

/-- Claim C9: height and weight are the source integers divided by 10,
with the float arithmetic modelled exactly over the rationals. -/
theorem c9_unit_conversion (fetchSpecies : Int → Option SpeciesDoc)
    (fetchEvoChain : String → Option EvoDoc) (raw : RawRecord) (h w : Int)
    (hh : raw.height = some h) (hw : raw.weight = some w) :
    (normalize_pokemon fetchSpecies fetchEvoChain raw).height = (h : Rat) / 10 ∧
    (normalize_pokemon fetchSpecies fetchEvoChain raw).weight = (w : Rat) / 10 := by
  unfold normalize_pokemon
  simp [hh, hw]

/-- Witness for C9: source height 4 and weight 60 divide to 0.4 and 6,
and the claim's example value 7 divides to 0.7. -/
theorem c9_unit_conversion_witness :
    rawPikachu.height = some 4 ∧
    (normalize_pokemon (fun _ => none) (fun _ => none) rawPikachu).height = (4 : Rat) / 10 ∧
    (normalize_pokemon (fun _ => none) (fun _ => none) rawPikachu).weight = (60 : Rat) / 10 ∧
    (7 : Rat) / 10 = 0.7 :=
  ⟨rfl,
   (c9_unit_conversion (fun _ => none) (fun _ => none) rawPikachu 4 60 rfl rfl).1,
   (c9_unit_conversion (fun _ => none) (fun _ => none) rawPikachu 4 60 rfl rfl).2,
   by norm_num⟩

end Pokedex
